import Mathlib

/-!
Verification of the WhatsApp webhook reply engine (Express + zod + axios).

This file is a shallow embedding of the repository's TypeScript sources:
`state.ts` (ConversationState + InMemoryStateStore), `meta.ts` (maskPhone,
sendWhatsAppText), `llm.ts` (withTimeout, extractFirstJsonObject,
parseLlmContent, generateReply) and the two `server.ts` variants (the richer
one with `SIMULATE_ONLY`, `/simulate` and request ids, called "richer variant"
below, and the simpler one, called "P3 variant" below).

JavaScript runtime data is modelled as follows: `Map`s and plain objects used
as records become association lists `List (String × _)` with in-place
overwrite (`aset`) matching `Map.set` / object-spread key semantics;
`Date.now()` timestamps become `Nat`; ISO timestamp strings become opaque
`String` parameters; a promise that may reject is an `Except Unit` value; the
outcome of the external generation call is an oracle parameter per message.
-/

/-- Association-map lookup, mirroring JavaScript `Map.get` and object key
access: returns the value stored at the first (and, for maps built with
`aset`, only) occurrence of the key. -/
def alookup {α : Type} (k : String) : List (String × α) → Option α
  | [] => Option.none
  | (k', v) :: t => if k' = k then Option.some v else alookup k t

/-- Association-map write, mirroring JavaScript `Map.set` and object property
assignment: overwrite in place if the key exists, append otherwise. -/
def aset {α : Type} (l : List (String × α)) (k : String) (v : α) : List (String × α) :=
  match l with
  | [] => [(k, v)]
  | (k', v') :: t => if k' = k then (k, v) :: t else (k', v') :: aset t k v

/-- maskPhone from `meta.ts`: inputs of length at most 4 map to `"****"`;
longer inputs keep the first two (`slice(0, 2)`) and last two (`slice(-2)`)
characters around `max 2 (length - 4)` asterisks. -/
def maskPhone (phone : String) : String :=
  if phone.length ≤ 4 then "****"
  else String.mk (phone.data.take 2 ++
    List.replicate (max 2 (phone.length - 4)) '*' ++
    phone.data.drop (phone.length - 2))

/-- Per-sender rate window entry from `server.ts`: `\x7b count, windowStart \x7d`. -/
structure RateEntry where
  count : Nat
  windowStart : Nat
deriving DecidableEq

/-- rateWindowMs constant from `server.ts` (60 * 1000). -/
def rateWindowMs : Nat := 60 * 1000

/-- rateLimitPerWindow constant from `server.ts` (20). -/
def rateLimitPerWindow : Nat := 20

/-- isRateLimited from `server.ts` (both variants are textually identical).
Takes the sender's current map entry (`phoneRateMap.get(phone)`) and returns
the boolean result together with the entry written back by `phoneRateMap.set`.
`now - windowStart` is JavaScript number subtraction; with `Nat` truncated
subtraction a clock that went backwards lands in the same (non-reset) branch
as in JavaScript, where the negative difference also fails the `>` test. -/
def isRateLimited (current : Option RateEntry) (now : Nat) : Bool × RateEntry :=
  match current with
  | Option.none => (false, ⟨1, now⟩)
  | Option.some c =>
    if rateWindowMs < now - c.windowStart then (false, ⟨1, now⟩)
    else (decide (rateLimitPerWindow < c.count + 1), ⟨c.count + 1, c.windowStart⟩)

/-- Sequential driver for `isRateLimited`: one sender's entry threaded through
a list of event timestamps, collecting each call's boolean result. -/
def runRate (current : Option RateEntry) : List Nat → List Bool × Option RateEntry
  | [] => ([], current)
  | t :: ts =>
    let r := isRateLimited current t
    let rest := runRate (Option.some r.2) ts
    (r.1 :: rest.1, rest.2)

/-- Key under which `InMemoryStateStore.merge` stamps the update time. -/
def updatedAtKey : String := "updated_at"

/-- InMemoryStateStore.merge from `state.ts`:
`merged = \x7b ...(map.get(phone) ?? \x7b\x7d), ...partialFacts, updated_at: iso \x7d`.
The old record is overwritten field-wise by the patch (spread semantics =
left-to-right `aset`), then the update timestamp is stamped. -/
def mergeState (old facts : List (String × String)) (nowIso : String) :
    List (String × String) :=
  aset (facts.foldl (fun acc kv => aset acc kv.1 kv.2) old) updatedAtKey nowIso

/-- Race budget of `withTimeout` in `generateReply` (`llm.ts`):
`params.timeoutMs ?? 8000`. -/
def raceBudgetMs (timeoutMs : Option Nat) : Nat := timeoutMs.getD 8000

/-- Transport-level axios timeout in `generateReply` (`llm.ts`):
`Math.min(params.timeoutMs ?? 8000, 7900)`. -/
def axiosTimeoutMs (timeoutMs : Option Nat) : Nat := min (timeoutMs.getD 8000) 7900

/-- Parsed LLM output after `llmOutputSchema` validation (`validators.ts`):
`reply` and `intent` are non-empty strings, `fields_collected` is a
string-to-string record, `fields_missing` a string array, `notes_for_human`
a string (the last three have zod defaults). -/
structure LlmOutput where
  reply : String
  intent : String
  fields_collected : List (String × String)
  fields_missing : List String
  notes_for_human : String
deriving DecidableEq

/-- One inbound webhook message (`textMessageSchema` in `validators.ts`).
`sender` is the source's `from` field (`from` is a Lean keyword) and
`msgType` its `type` field; `text` is the optional `text.body`. -/
structure Msg where
  id : String
  sender : String
  msgType : String
  text : Option String
deriving DecidableEq

/-- Outcome of one `generateReply(...)` call, supplied as an oracle per
message: `rej` is a rejected promise (timeout fired in `withTimeout`, or an
axios transport error), `absent` is a fulfilled promise resolving to `null`
(non-string content, or parse/validation failure caught inside
`generateReply`), `present r` a fulfilled promise with a schema-valid value. -/
inductive GenResult where
  | rej
  | absent
  | present (r : LlmOutput)
deriving DecidableEq

/-- Externally observable orchestrator outputs: a successful outbound
WhatsApp send, or the `[HUMAN_HANDOFF]` escalation record (masked phone,
notes_for_human, triggering customer text, conversation-state snapshot). -/
inductive Act where
  | send (recipient body : String)
  | escalation (maskedPhone notesForHuman triggeringText : String)
      (snapshot : List (String × String))
deriving DecidableEq

/-- Mutable module-level maps of `server.ts`: `processedMessageIds`,
`phoneRateMap` and the `InMemoryStateStore` map. -/
structure ServerState where
  processedIds : List (String × Nat)
  rateMap : List (String × RateEntry)
  states : List (String × List (String × String))
deriving DecidableEq

/-- Result of processing one inbound message: actions emitted so far, the
server state after all mutations that happened before returning or throwing,
and whether the processing threw (a rejected `await`). -/
structure StepResult where
  acts : List Act
  st : ServerState
  errored : Bool
deriving DecidableEq

/-- Fallback clarifying message sent when no usable generation result exists
(identical string in both `server.ts` variants). -/
def fallbackBody : String := "Teşekkürler. Size doğru teklif hazırlamak için kullanım alanı ve ölçü (mm) bilgisini paylaşır mısınız?"

/-- Fixed handoff acknowledgement message (identical in both variants). -/
def handoffAckBody : String := "Tamam. Yetkili arkadaşım devreye girsin. Ürün tipi + ölçü (mm) + adet yazar mısınız?"

/-- Reserved escalation intent value compared case-insensitively. -/
def handoffIntent : String := "handoff"

/-- JavaScript `String.prototype.toLowerCase` as used on the intent label:
character-wise lowering (`Char.toLower` maps the ASCII range, which covers
the reserved `"handoff"` comparison; a kernel-computable stand-in for
`String.toLower`, whose byte-position recursion does not reduce). -/
def lowerStr (s : String) : String := String.mk (s.data.map Char.toLower)

/-- duplicateWindowMs constant from `server.ts` (24 * 60 * 60 * 1000). -/
def duplicateWindowMs : Nat := 24 * 60 * 60 * 1000

/-- cleanupProcessedIds from `server.ts`: delete every dedup entry whose
first-seen timestamp is more than `duplicateWindowMs` in the past. -/
def cleanupProcessedIds (l : List (String × Nat)) (now : Nat) : List (String × Nat) :=
  l.filter (fun kv => decide (now - kv.2 ≤ duplicateWindowMs))

/-- stateStore.get from `state.ts`: `map.get(phone) ?? \x7b\x7d`. -/
def stateStoreGet (st : ServerState) (phone : String) : List (String × String) :=
  (alookup phone st.states).getD []

/-- maybeSendWhatsAppText from the richer `server.ts`: throws when
`SIMULATE_ONLY` is true, otherwise performs the outbound transport send,
whose success is the oracle `sendOk` (a rejected axios call is `error`). -/
def maybeSendWhatsAppText (simulateOnly : Bool) (recipient body : String) (sendOk : Bool) :
    Except Unit (List Act) :=
  if simulateOnly then Except.error ()
  else if sendOk then Except.ok [Act.send recipient body]
  else Except.error ()

/-- Present-result branch of the richer `POST /webhook` handler (merge of
`fields_collected` + `last_intent` + `last_reply`, then handoff test on
`intent.toLowerCase()`, then acknowledgement + escalation log or plain reply
send). The escalation carries `message.text.body.slice(0, 200)` and the
post-merge `stateStore.get(from)` snapshot. -/
def dispatchPresent (simulateOnly : Bool) (st : ServerState) (sender textBody : String)
    (r : LlmOutput) (sendOk : Bool) (nowIso : String) : StepResult :=
  let merged := mergeState (stateStoreGet st sender)
    (r.fields_collected ++ [("last_intent", r.intent), ("last_reply", r.reply)]) nowIso
  let st3 : ServerState := { st with states := aset st.states sender merged }
  if lowerStr r.intent = handoffIntent then
    match maybeSendWhatsAppText simulateOnly sender handoffAckBody sendOk with
    | Except.ok acts =>
        ⟨acts ++ [Act.escalation (maskPhone sender) r.notes_for_human
          (String.mk (textBody.data.take 200)) (stateStoreGet st3 sender)], st3, false⟩
    | Except.error _ => ⟨[], st3, true⟩
  else
    match maybeSendWhatsAppText simulateOnly sender r.reply sendOk with
    | Except.ok acts => ⟨acts, st3, false⟩
    | Except.error _ => ⟨[], st3, true⟩

/-- Per-message body of the richer `POST /webhook` loop: duplicate check,
unconditional dedup recording, rate check (with its map write-back), text-kind
check, then the generation call (whose rejection is NOT caught here and
propagates to the route-level try/catch), fallback send on `null`, or the
present-result dispatch. -/
def processMessage (simulateOnly : Bool) (st : ServerState) (m : Msg) (g : GenResult)
    (sendOk : Bool) (now : Nat) (nowIso : String) : StepResult :=
  if (alookup m.id st.processedIds).isSome then ⟨[], st, false⟩
  else
    let st1 : ServerState := { st with processedIds := aset st.processedIds m.id now }
    let rr := isRateLimited (alookup m.sender st1.rateMap) now
    let st2 : ServerState := { st1 with rateMap := aset st1.rateMap m.sender rr.2 }
    if rr.1 then ⟨[], st2, false⟩
    else if m.msgType ≠ "text" ∨ (m.text.getD "").isEmpty then ⟨[], st2, false⟩
    else
      match g with
      | GenResult.rej => ⟨[], st2, true⟩
      | GenResult.absent =>
        match maybeSendWhatsAppText simulateOnly m.sender fallbackBody sendOk with
        | Except.ok acts => ⟨acts, st2, false⟩
        | Except.error _ => ⟨[], st2, true⟩
      | GenResult.present r =>
        dispatchPresent simulateOnly st2 m.sender (m.text.getD "") r sendOk nowIso

/-- Flattened message loop of the richer `POST /webhook` handler: messages are
awaited strictly in order; a throw from one message's processing escapes the
loop (reaching the route's catch), so later messages are never reached. -/
def runBatch (simulateOnly : Bool) (st : ServerState)
    (batch : List (Msg × GenResult × Bool)) (now : Nat) (nowIso : String) : StepResult :=
  match batch with
  | [] => ⟨[], st, false⟩
  | (m, g, s) :: rest =>
    match processMessage simulateOnly st m g s now nowIso with
    | ⟨acts, st', true⟩ => ⟨acts, st', true⟩
    | ⟨acts, st', false⟩ =>
      let rr := runBatch simulateOnly st' rest now nowIso
      ⟨acts ++ rr.acts, rr.st, rr.errored⟩

/-- HTTP status outcomes of the modelled routes. -/
inductive Resp where
  | ok
  | badRequest
  | forbidden
  | serverError
deriving DecidableEq

/-- Richer `POST /webhook` route: the `SIMULATE_ONLY` guard answers 403 before
any message is touched; otherwise expired dedup entries are swept, the batch
runs, and a throw reaches `next(error)` (the global 500 JSON error handler). -/
def postWebhook (simulateOnly : Bool) (st : ServerState)
    (batch : List (Msg × GenResult × Bool)) (now : Nat) (nowIso : String) :
    Resp × List Act × ServerState :=
  if simulateOnly then (Resp.forbidden, [], st)
  else
    let st0 : ServerState := { st with processedIds := cleanupProcessedIds st.processedIds now }
    let r := runBatch false st0 batch now nowIso
    (if r.errored then Resp.serverError else Resp.ok, r.acts, r.st)

/-- Richer `POST /send` route: `SIMULATE_ONLY` guard, then `sendSchema`
validation (`to` at least 6 chars, `text` at least 1), then the guarded send;
a throw reaches the global error handler (500). -/
def postSend (simulateOnly : Bool) (recipient text : String) (sendOk : Bool) :
    Resp × List Act :=
  if simulateOnly then (Resp.forbidden, [])
  else if recipient.length < 6 ∨ text.length < 1 then (Resp.badRequest, [])
  else
    match maybeSendWhatsAppText simulateOnly recipient text sendOk with
    | Except.ok acts => (Resp.ok, acts)
    | Except.error _ => (Resp.serverError, [])

/-- Present-result branch of the P3-variant `POST /webhook` handler: merge of
`fields_collected` + `last_intent` (no `last_reply`), handoff test, and the
escalation record carrying the full `message.text.body` (no truncation). -/
def dispatchPresentP3 (st : ServerState) (sender textBody : String) (r : LlmOutput)
    (sendOk : Bool) (nowIso : String) : StepResult :=
  let merged := mergeState (stateStoreGet st sender)
    (r.fields_collected ++ [("last_intent", r.intent)]) nowIso
  let st3 : ServerState := { st with states := aset st.states sender merged }
  if lowerStr r.intent = handoffIntent then
    (if sendOk then
      ⟨[Act.send sender handoffAckBody,
        Act.escalation (maskPhone sender) r.notes_for_human textBody
          (stateStoreGet st3 sender)], st3, false⟩
     else ⟨[], st3, true⟩)
  else
    (if sendOk then ⟨[Act.send sender r.reply], st3, false⟩ else ⟨[], st3, true⟩)

/-- Per-message body of the P3-variant `POST /webhook` loop. The generation
call sits in a local try/catch, so a rejected `generateReply` promise leaves
`llmResult = null` and takes the same fallback branch as a `null` result;
outbound send rejections are not caught and abort the loop. -/
def processMessageP3 (st : ServerState) (m : Msg) (g : GenResult) (sendOk : Bool)
    (now : Nat) (nowIso : String) : StepResult :=
  if (alookup m.id st.processedIds).isSome then ⟨[], st, false⟩
  else
    let st1 : ServerState := { st with processedIds := aset st.processedIds m.id now }
    let rr := isRateLimited (alookup m.sender st1.rateMap) now
    let st2 : ServerState := { st1 with rateMap := aset st1.rateMap m.sender rr.2 }
    if rr.1 then ⟨[], st2, false⟩
    else if m.msgType ≠ "text" ∨ (m.text.getD "").isEmpty then ⟨[], st2, false⟩
    else
      match g with
      | GenResult.rej | GenResult.absent =>
        (if sendOk then ⟨[Act.send m.sender fallbackBody], st2, false⟩
         else ⟨[], st2, true⟩)
      | GenResult.present r =>
        dispatchPresentP3 st2 m.sender (m.text.getD "") r sendOk nowIso

/-- Flattened message loop of the P3-variant `POST /webhook` handler; an
uncaught send rejection escapes the async route handler, so later messages
are never reached. -/
def runBatchP3 (st : ServerState) (batch : List (Msg × GenResult × Bool))
    (now : Nat) (nowIso : String) : StepResult :=
  match batch with
  | [] => ⟨[], st, false⟩
  | (m, g, s) :: rest =>
    match processMessageP3 st m g s now nowIso with
    | ⟨acts, st', true⟩ => ⟨acts, st', true⟩
    | ⟨acts, st', false⟩ =>
      let rr := runBatchP3 st' rest now nowIso
      ⟨acts ++ rr.acts, rr.st, rr.errored⟩

/-- Concrete inbound text message used in concrete evaluations. -/
def c2Msg : Msg := ⟨"wamid.1", "905551112233", "text", Option.some "Saat kordonu"⟩

/-- First message of the concrete three-message batch. -/
def c3Msg1 : Msg := ⟨"id1", "p11111", "text", Option.some "m1"⟩

/-- Second message of the concrete three-message batch (its send will fail). -/
def c3Msg2 : Msg := ⟨"id2", "p22222", "text", Option.some "m2"⟩

/-- Third message of the concrete three-message batch. -/
def c3Msg3 : Msg := ⟨"id3", "p33333", "text", Option.some "m3"⟩

/-- Concrete generation result with a non-escalation intent. -/
def c3Reply : LlmOutput := ⟨"reply1", "qualify", [], [], ""⟩

/-- Concrete message reused for duplicate-intake evaluations. -/
def c6Msg : Msg := ⟨"dup1", "p44444", "text", Option.some "hello"⟩

/-- Concrete generation result collecting one fact. -/
def c6Reply : LlmOutput := ⟨"replyD", "qualify", [("usage", "strap")], [], ""⟩

/-- Concrete generation result with a mixed-case escalation intent. -/
def c7Reply : LlmOutput := ⟨"free", "HANDOFF", [], [], "note"⟩

/-- A 201-character customer message, longer than the 200-character slice the
richer variant logs in the escalation record. -/
def longText : String := String.mk (List.replicate 201 'a')

/-- Opening-brace character, written via its code point to keep string and
character literals free of raw braces. -/
def lbrace : Char := Char.ofNat 123

/-- Closing-brace character. -/
def rbrace : Char := Char.ofNat 125

/-- JSON values as produced by JavaScript `JSON.parse`. Numbers keep their
raw source text (no claim in this development inspects numeric values, so no
floating-point semantics is needed); objects are key-ordered association
lists where a duplicate key overwrites in place (JavaScript property
assignment: last value wins, first position kept). -/
inductive Json where
  | null
  | bool (b : Bool)
  | num (raw : String)
  | str (s : String)
  | arr (items : List Json)
  | obj (members : List (String × Json))

/-- JSON insignificant whitespace (space, tab, line feed, carriage return). -/
def skipWs : List Char → List Char
  | [] => []
  | c :: cs =>
    if c == ' ' || c == '\t' || c == '\n' || c == '\r' then skipWs cs else c :: cs

/-- Hexadecimal digit value, for `\uXXXX` string escapes. -/
def hexDigit (c : Char) : Option Nat :=
  if '0' ≤ c ∧ c ≤ '9' then Option.some (c.toNat - '0'.toNat)
  else if 'a' ≤ c ∧ c ≤ 'f' then Option.some (c.toNat - 'a'.toNat + 10)
  else if 'A' ≤ c ∧ c ≤ 'F' then Option.some (c.toNat - 'A'.toNat + 10)
  else Option.none

/-- Single-character JSON string escapes. -/
def escapeChar (c : Char) : Option Char :=
  if c = '"' then Option.some '"'
  else if c = '\\' then Option.some '\\'
  else if c = '/' then Option.some '/'
  else if c = 'b' then Option.some (Char.ofNat 8)
  else if c = 'f' then Option.some (Char.ofNat 12)
  else if c = 'n' then Option.some '\n'
  else if c = 'r' then Option.some '\r'
  else if c = 't' then Option.some '\t'
  else Option.none

/-- Body of a JSON string after the opening quote: collects characters (in
reverse in `acc`) until the closing quote, handling escapes and rejecting raw
control characters, as `JSON.parse` does. -/
def parseStringBody : List Char → List Char → Option (String × List Char)
  | acc, '"' :: cs => Option.some (String.mk acc.reverse, cs)
  | acc, '\\' :: 'u' :: a :: b :: c :: d :: cs =>
    (match hexDigit a, hexDigit b, hexDigit c, hexDigit d with
     | Option.some ha, Option.some hb, Option.some hc, Option.some hd =>
       parseStringBody (Char.ofNat (((ha * 16 + hb) * 16 + hc) * 16 + hd) :: acc) cs
     | _, _, _, _ => Option.none)
  | acc, '\\' :: e :: cs =>
    (match escapeChar e with
     | Option.some c => parseStringBody (c :: acc) cs
     | Option.none => Option.none)
  | acc, c :: cs =>
    if c.toNat < 32 then Option.none else parseStringBody (c :: acc) cs
  | _, [] => Option.none

/-- Integer part of a JSON number: `0`, or a nonzero digit followed by
digits (leading zeros are rejected, as in `JSON.parse`). -/
def parseIntPart : List Char → Option (List Char × List Char)
  | '0' :: cs => Option.some (['0'], cs)
  | c :: cs =>
    if c.isDigit then
      Option.some (c :: cs.takeWhile Char.isDigit, cs.dropWhile Char.isDigit)
    else Option.none
  | [] => Option.none

/-- Optional fraction part of a JSON number: `.` followed by one or more
digits. -/
def parseFrac : List Char → Option (List Char × List Char)
  | '.' :: cs =>
    let ds := cs.takeWhile Char.isDigit
    if ds.isEmpty then Option.none
    else Option.some ('.' :: ds, cs.dropWhile Char.isDigit)
  | cs => Option.some ([], cs)

/-- Optional exponent part of a JSON number: `e`/`E`, optional sign, one or
more digits. -/
def parseExp : List Char → Option (List Char × List Char)
  | c :: cs =>
    if c == 'e' || c == 'E' then
      match cs with
      | s :: cs2 =>
        if s == '+' || s == '-' then
          let ds := cs2.takeWhile Char.isDigit
          if ds.isEmpty then Option.none
          else Option.some (c :: s :: ds, cs2.dropWhile Char.isDigit)
        else
          let ds := cs.takeWhile Char.isDigit
          if ds.isEmpty then Option.none
          else Option.some (c :: ds, cs.dropWhile Char.isDigit)
      | [] => Option.none
    else Option.some ([], c :: cs)
  | [] => Option.some ([], [])

/-- JSON number: optional minus sign, integer part, optional fraction and
exponent; the raw text is kept. -/
def parseNumber (cs0 : List Char) : Option (String × List Char) :=
  let sign : List Char × List Char :=
    match cs0 with
    | '-' :: r => (['-'], r)
    | r => ([], r)
  match parseIntPart sign.2 with
  | Option.none => Option.none
  | Option.some (ip, cs2) =>
    match parseFrac cs2 with
    | Option.none => Option.none
    | Option.some (fp, cs3) =>
      match parseExp cs3 with
      | Option.none => Option.none
      | Option.some (ep, cs4) => Option.some (String.mk (sign.1 ++ ip ++ fp ++ ep), cs4)

/-- Parser mode: a JSON value, the inside of an array or object right after
its opening bracket, or the element/member loop with the accumulator so far.
A single fuel-indexed function instead of mutual recursion keeps the
definition structurally recursive. -/
inductive PMode where
  | value
  | arrayRest
  | arrayItems (acc : List Json)
  | objectRest
  | objectMembers (acc : List (String × Json))

/-- Recursive core of the `JSON.parse` model. The fuel strictly exceeds the
nesting depth ever reachable from an input of the given length, so
`jsonParse` below never exhausts it. -/
def parseJ : Nat → PMode → List Char → Option (Json × List Char)
  | 0, _, _ => Option.none
  | Nat.succ fuel, PMode.value, cs =>
    (match skipWs cs with
     | 'n' :: 'u' :: 'l' :: 'l' :: rest => Option.some (Json.null, rest)
     | 't' :: 'r' :: 'u' :: 'e' :: rest => Option.some (Json.bool true, rest)
     | 'f' :: 'a' :: 'l' :: 's' :: 'e' :: rest => Option.some (Json.bool false, rest)
     | '"' :: rest =>
       (match parseStringBody [] rest with
        | Option.some (s, rest2) => Option.some (Json.str s, rest2)
        | Option.none => Option.none)
     | c :: rest =>
       if c = lbrace then parseJ fuel PMode.objectRest rest
       else if c = '[' then parseJ fuel PMode.arrayRest rest
       else (parseNumber (c :: rest)).map (fun p => (Json.num p.1, p.2))
     | [] => Option.none)
  | Nat.succ fuel, PMode.arrayRest, cs =>
    (match skipWs cs with
     | c :: rest =>
       if c = ']' then Option.some (Json.arr [], rest)
       else parseJ fuel (PMode.arrayItems []) (c :: rest)
     | [] => Option.none)
  | Nat.succ fuel, PMode.arrayItems acc, cs =>
    (match parseJ fuel PMode.value cs with
     | Option.none => Option.none
     | Option.some (v, rest) =>
       match skipWs rest with
       | c :: rest2 =>
         if c = ',' then parseJ fuel (PMode.arrayItems (v :: acc)) rest2
         else if c = ']' then Option.some (Json.arr (v :: acc).reverse, rest2)
         else Option.none
       | [] => Option.none)
  | Nat.succ fuel, PMode.objectRest, cs =>
    (match skipWs cs with
     | c :: rest =>
       if c = rbrace then Option.some (Json.obj [], rest)
       else parseJ fuel (PMode.objectMembers []) (c :: rest)
     | [] => Option.none)
  | Nat.succ fuel, PMode.objectMembers acc, cs =>
    (match skipWs cs with
     | '"' :: rest =>
       (match parseStringBody [] rest with
        | Option.none => Option.none
        | Option.some (key, rest2) =>
          match skipWs rest2 with
          | ':' :: rest3 =>
            (match parseJ fuel PMode.value rest3 with
             | Option.none => Option.none
             | Option.some (v, rest4) =>
               match skipWs rest4 with
               | c :: rest5 =>
                 if c = ',' then parseJ fuel (PMode.objectMembers (aset acc key v)) rest5
                 else if c = rbrace then Option.some (Json.obj (aset acc key v), rest5)
                 else Option.none
               | [] => Option.none)
          | _ => Option.none)
     | _ => Option.none)

/-- JSON.parse model: a single JSON value covering the whole input up to
insignificant whitespace; `Option.none` is a thrown `SyntaxError`. -/
def jsonParse (s : String) : Option Json :=
  match parseJ (s.length + 1) PMode.value s.data with
  | Option.some (j, rest) =>
    if (skipWs rest).isEmpty then Option.some j else Option.none
  | Option.none => Option.none

/-- String extractor of `llmOutputSchema`'s `z.string()` fields. -/
def jsonAsString : Json → Option String
  | Json.str s => Option.some s
  | _ => Option.none

/-- Record extractor of `z.record(z.string(), z.string())`: an object all of
whose values are strings. -/
def jsonAsStringRecord : Json → Option (List (String × String))
  | Json.obj kvs =>
    kvs.foldr
      (fun kv acc =>
        match acc, kv.2 with
        | Option.some l, Json.str v => Option.some ((kv.1, v) :: l)
        | _, _ => Option.none)
      (Option.some [])
  | _ => Option.none

/-- Array extractor of `z.array(z.string())`. -/
def jsonAsStringArray : Json → Option (List String)
  | Json.arr xs =>
    xs.foldr
      (fun x acc =>
        match acc, x with
        | Option.some l, Json.str s => Option.some (s :: l)
        | _, _ => Option.none)
      (Option.some [])
  | _ => Option.none

/-- llmOutputSchema.safeParse from `validators.ts`: `reply` and `intent` are
required non-empty strings; `fields_collected` defaults to the empty record,
`fields_missing` to the empty array, `notes_for_human` to the empty string
when the key is absent; present keys must match their types. Unknown keys are
stripped (zod object default). `Option.none` is a failed `safeParse`. -/
def validateLlmOutput (j : Json) : Option LlmOutput :=
  match j with
  | Json.obj kvs =>
    (match alookup "reply" kvs, alookup "intent" kvs with
     | Option.some jr, Option.some ji =>
       (match jsonAsString jr, jsonAsString ji with
        | Option.some reply, Option.some intent =>
          if reply.isEmpty || intent.isEmpty then Option.none
          else
            let fc :=
              match alookup "fields_collected" kvs with
              | Option.none => Option.some []
              | Option.some v => jsonAsStringRecord v
            let fm :=
              match alookup "fields_missing" kvs with
              | Option.none => Option.some []
              | Option.some v => jsonAsStringArray v
            let nh :=
              match alookup "notes_for_human" kvs with
              | Option.none => Option.some ""
              | Option.some v => jsonAsString v
            match fc, fm, nh with
            | Option.some fc, Option.some fm, Option.some nh =>
              Option.some ⟨reply, intent, fc, fm, nh⟩
            | _, _, _ => Option.none
        | _, _ => Option.none)
     | _, _ => Option.none)
  | _ => Option.none

/-- extractFirstJsonObject from `llm.ts`: the regex match
`raw.match(/\x7b[\s\S]*\x7d/)`, i.e. the greedy span from the first opening
brace to the last closing brace at or after it, or `null` when no such span
exists. -/
def extractFirstJsonObject (raw : String) : Option String :=
  let cs := raw.data.dropWhile (fun c => c ≠ lbrace)
  let kept := (cs.reverse.dropWhile (fun c => c ≠ rbrace)).reverse
  if kept.isEmpty then Option.none else Option.some (String.mk kept)

/-- parseLlmContent from `llm.ts`, with thrown exceptions made explicit:
`JSON.parse(content)` sits OUTSIDE any local try/catch, so a content string
that is not valid JSON throws out of `parseLlmContent` (result
`Except.error`), and the same holds for `JSON.parse(repaired)`. Only a
successfully parsed but schema-invalid content reaches the repair branch. -/
def parseLlmContent (content : String) : Except Unit (Option LlmOutput) :=
  match jsonParse content with
  | Option.none => Except.error ()
  | Option.some j =>
    match validateLlmOutput j with
    | Option.some out => Except.ok (Option.some out)
    | Option.none =>
      match extractFirstJsonObject content with
      | Option.none => Except.ok Option.none
      | Option.some rep =>
        match jsonParse rep with
        | Option.none => Except.error ()
        | Option.some j2 => Except.ok (validateLlmOutput j2)

/-- Content handling at the tail of `generateReply` (`llm.ts`): the
`try \x7b return parseLlmContent(content) \x7d catch \x7b return null \x7d`
wrapper collapsing a throw from `parseLlmContent` to `null`. -/
def parseLlmContentCaught (content : String) : Option LlmOutput :=
  match parseLlmContent content with
  | Except.ok r => r
  | Except.error _ => Option.none

/-- A raw generation response of the shape the repair policy targets: leading
prose followed by a schema-valid JSON object. -/
def c1Content : String := "Sure! \x7b\"reply\":\"hi\",\"intent\":\"q\"\x7d"

/-- The valid JSON object embedded in `c1Content` (exactly the span the
outermost-brace extraction selects). -/
def c1Embedded : String := "\x7b\"reply\":\"hi\",\"intent\":\"q\"\x7d"

theorem alookup_aset_self {α : Type} (l : List (String × α)) (k : String) (v : α) :
    alookup k (aset l k v) = Option.some v := by
  induction l with
  | nil => simp [aset, alookup]
  | cons hd t ih =>
    obtain ⟨k', v'⟩ := hd
    by_cases h : k' = k
    · simp [aset, h, alookup]
    · simp [aset, h, alookup, ih]

theorem alookup_aset_ne {α : Type} (l : List (String × α)) {k k' : String} (v : α)
    (h : k' ≠ k) : alookup k' (aset l k v) = alookup k' l := by
  have hkk : ¬ k = k' := fun hc => h hc.symm
  induction l with
  | nil => simp [aset, alookup, hkk]
  | cons hd t ih =>
    obtain ⟨k0, v0⟩ := hd
    by_cases h0 : k0 = k
    · subst h0
      simp [aset, alookup, hkk]
    · simp [aset, h0, alookup, ih]

theorem alookup_foldl_aset_of_not_mem {α : Type} (facts : List (String × α))
    (acc : List (String × α)) (k : String) (h : k ∉ facts.map Prod.fst) :
    alookup k (facts.foldl (fun a kv => aset a kv.1 kv.2) acc) = alookup k acc := by
  induction facts generalizing acc with
  | nil => rfl
  | cons hd t ih =>
    simp only [List.map_cons, List.mem_cons] at h
    push_neg at h
    rw [List.foldl_cons, ih _ h.2, alookup_aset_ne _ _ h.1]

theorem alookup_foldl_aset {α : Type} (facts : List (String × α))
    (acc : List (String × α)) (k : String) (hnd : (facts.map Prod.fst).Nodup) :
    alookup k (facts.foldl (fun a kv => aset a kv.1 kv.2) acc) =
      match alookup k facts with
      | Option.some v => Option.some v
      | Option.none => alookup k acc := by
  induction facts generalizing acc with
  | nil => rfl
  | cons hd t ih =>
    obtain ⟨k1, v1⟩ := hd
    simp only [List.map_cons, List.nodup_cons] at hnd
    by_cases h : k1 = k
    · subst h
      rw [List.foldl_cons, alookup_foldl_aset_of_not_mem _ _ _ hnd.1,
        alookup_aset_self]
      simp [alookup]
    · rw [List.foldl_cons, ih _ hnd.2,
        alookup_aset_ne _ _ (fun hc => h hc.symm)]
      simp [alookup, h]

theorem alookup_mergeState (old facts : List (String × String)) (nowIso k : String)
    (hnd : (facts.map Prod.fst).Nodup) :
    alookup k (mergeState old facts nowIso) =
      if k = updatedAtKey then Option.some nowIso
      else
        match alookup k facts with
        | Option.some v => Option.some v
        | Option.none => alookup k old := by
  unfold mergeState
  by_cases h : k = updatedAtKey
  · subst h
    rw [alookup_aset_self]
    simp
  · rw [alookup_aset_ne _ _ h, alookup_foldl_aset _ _ _ hnd, if_neg h]
    cases alookup k facts <;> rfl

/-- C4 counterexample: at the default budget (`timeoutMs` absent, hence
8000ms), the race budget is 8000 and the axios transport timeout is
`min 8000 7900 = 7900`, so the orchestration race budget is NOT strictly
smaller than the transport timeout — the relation claimed by the spec is
inverted in the code. -/
theorem raceBudget_not_stricter_counterexample :
    raceBudgetMs Option.none = 8000 ∧ axiosTimeoutMs Option.none = 7900 ∧
      ¬ raceBudgetMs Option.none < axiosTimeoutMs Option.none := by
  refine ⟨rfl, rfl, ?_⟩
  decide

/-- C4 (amended): the transport-level axios timeout `min(budget, 7900)` is
always at most the `withTimeout` race budget, and at the default 8000ms budget
it is strictly smaller: the transport timeout, not the race timer, is the
stricter bound, and the race timer is the secondary bound. -/
theorem transport_timeout_at_most_race_budget :
    (∀ t : Option Nat, axiosTimeoutMs t ≤ raceBudgetMs t) ∧
      axiosTimeoutMs Option.none < raceBudgetMs Option.none := by
  constructor
  · intro t
    exact Nat.min_le_left _ _ |>.trans (Nat.le_refl _)
  · decide

theorem alookup_filter {α : Type} (p : String × α → Bool) (l : List (String × α))
    (k : String) (v : α) (h1 : alookup k l = Option.some v) (h2 : p (k, v) = true) :
    alookup k (l.filter p) = Option.some v := by
  induction l with
  | nil => simp [alookup] at h1
  | cons hd tl ih =>
    obtain ⟨k0, v0⟩ := hd
    by_cases hk : k0 = k
    · subst hk
      simp only [alookup, if_pos rfl] at h1
      cases h1
      rw [List.filter_cons, if_pos h2]
      simp [alookup]
    · simp only [alookup, if_neg hk] at h1
      rw [List.filter_cons]
      by_cases hp : p (k0, v0) = true
      · rw [if_pos hp]
        simp [alookup, hk, ih h1]
      · rw [if_neg hp]
        exact ih h1

theorem alookup_cleanup (l : List (String × Nat)) (now : Nat) (k : String) (t : Nat)
    (h1 : alookup k l = Option.some t) (h2 : now - t ≤ duplicateWindowMs) :
    alookup k (cleanupProcessedIds l now) = Option.some t :=
  alookup_filter _ l k t h1 (by simpa using h2)

theorem runRate_within_window (ts : List Nat) (k t0 : Nat)
    (h : ∀ t ∈ ts, t - t0 ≤ rateWindowMs) :
    runRate (Option.some ⟨k, t0⟩) ts =
      ((List.range ts.length).map (fun i => decide (rateLimitPerWindow < k + i + 1)),
       Option.some ⟨k + ts.length, t0⟩) := by
  induction ts generalizing k with
  | nil => simp [runRate]
  | cons t ts ih =>
    have ht : t - t0 ≤ rateWindowMs := h t (List.mem_cons_self _ _)
    have hrest : ∀ x ∈ ts, x - t0 ≤ rateWindowMs :=
      fun x hx => h x (List.mem_cons_of_mem _ hx)
    simp only [runRate, isRateLimited, if_neg (Nat.not_lt.mpr ht)]
    rw [ih (k + 1) hrest]
    refine Prod.ext ?_ ?_
    · simp only [List.length_cons, List.range_succ_eq_map, List.map_cons, List.map_map]
      refine congrArg₂ List.cons (by simp) ?_
      refine List.map_congr_left (fun i _ => ?_)
      simp only [Function.comp_apply]
      exact decide_eq_decide.mpr (by omega)
    · simp only [List.length_cons]
      refine congrArg Option.some ?_
      refine congrArg₂ RateEntry.mk (by omega) rfl

/-- C5: within one rate window a sender's events are accepted exactly while
the running count stays at or below `rateLimitPerWindow` (20): starting from
no entry, an event at `t0` followed by events all within `rateWindowMs` of
`t0` yields `false` for the first 20 events and `true` from the 21st on (the
i-th event, 1-indexed, is limited iff `20 < i`), with the stored window start
pinned at `t0`; and whenever an event arrives more than `rateWindowMs` after
the stored window start the window resets and that event is accepted with
count 1. -/
theorem rate_limit_exactly_first_20 (t0 : Nat) (ts : List Nat)
    (h : ∀ t ∈ ts, t - t0 ≤ rateWindowMs) :
    runRate Option.none (t0 :: ts) =
      ((List.range (ts.length + 1)).map (fun i => decide (rateLimitPerWindow < i + 1)),
       Option.some ⟨ts.length + 1, t0⟩) ∧
    (∀ (c : RateEntry) (now : Nat), rateWindowMs < now - c.windowStart →
      isRateLimited (Option.some c) now = (false, ⟨1, now⟩)) := by
  constructor
  · simp only [runRate, isRateLimited]
    rw [runRate_within_window ts 1 t0 h]
    refine Prod.ext ?_ ?_
    · simp only [List.range_succ_eq_map, List.map_cons, List.map_map]
      refine congrArg₂ List.cons (by decide) ?_
      refine List.map_congr_left (fun i _ => ?_)
      simp only [Function.comp_apply]
      exact decide_eq_decide.mpr (by omega)
    · simp [Nat.add_comm]
  · intro c now hc
    simp [isRateLimited, hc]

/-- C5 witness: 25 events of one sender at the same instant are answered
`false` for the first 20 and `true` for the last 5, and a stored window from
instant 0 hit at instant 70000 (beyond the 60000ms window) resets to an
accepted event with count 1. -/
theorem rate_limit_exactly_first_20_witness :
    runRate Option.none (1000 :: List.replicate 24 1000) =
      ((List.range 25).map (fun i => decide (rateLimitPerWindow < i + 1)),
       Option.some ⟨25, 1000⟩) ∧
    isRateLimited (Option.some ⟨7, 0⟩) 70000 = (false, ⟨1, 70000⟩) := by
  constructor
  · have h := (rate_limit_exactly_first_20 1000 (List.replicate 24 1000)
      (by decide)).1
    simpa using h
  · exact (rate_limit_exactly_first_20 1000 (List.replicate 24 1000)
      (by decide)).2 ⟨7, 0⟩ 70000 (by decide)

/-- C8: `merge` is a shallow field-wise overwrite — for every key, the merged
record holds the refreshed timestamp at `updated_at`, the patch's value where
the patch has the key, and the prior value otherwise — and repeating a merge
of the same facts yields, field by field, the same record as merging them
once, apart from the timestamp taken from the later merge. The `Nodup`
hypothesis says the patch is a record (one value per key), which holds for
every patch the callers build from a parsed JavaScript object. -/
theorem mergeState_shallow_overwrite (old facts : List (String × String))
    (t1 t2 k : String) (hnd : (facts.map Prod.fst).Nodup) :
    (alookup k (mergeState old facts t1) =
      if k = updatedAtKey then Option.some t1
      else
        match alookup k facts with
        | Option.some v => Option.some v
        | Option.none => alookup k old) ∧
    alookup k (mergeState (mergeState old facts t1) facts t2) =
      alookup k (mergeState old facts t2) := by
  refine ⟨alookup_mergeState _ _ _ _ hnd, ?_⟩
  rw [alookup_mergeState (mergeState old facts t1) facts t2 k hnd,
    alookup_mergeState old facts t2 k hnd]
  by_cases h : k = updatedAtKey
  · simp [h]
  · rw [if_neg h, if_neg h]
    cases hf : alookup k facts with
    | some v => rfl
    | none =>
      show alookup k (mergeState old facts t1) = alookup k old
      rw [alookup_mergeState old facts t1 k hnd, if_neg h, hf]

/-- C8 witness: a concrete merge overwrites the patched key, preserves the
unpatched key, stamps the timestamp, and repeating the merge changes nothing
beyond the refreshed timestamp. -/
theorem mergeState_shallow_overwrite_witness :
    alookup "a" (mergeState [("a", "0"), ("c", "9")] [("a", "1"), ("b", "2")] "T1") =
      Option.some "1" ∧
    alookup "c" (mergeState [("a", "0"), ("c", "9")] [("a", "1"), ("b", "2")] "T1") =
      Option.some "9" ∧
    alookup updatedAtKey
      (mergeState [("a", "0"), ("c", "9")] [("a", "1"), ("b", "2")] "T1") =
      Option.some "T1" ∧
    alookup "b" (mergeState (mergeState [("a", "0")] [("b", "2")] "T1") [("b", "2")] "T2") =
      alookup "b" (mergeState [("a", "0")] [("b", "2")] "T2") := by
  refine ⟨?_, ?_, ?_,
    (mergeState_shallow_overwrite [("a", "0")] [("b", "2")] "T1" "T2" "b" (by decide)).2⟩
  · rw [(mergeState_shallow_overwrite [("a", "0"), ("c", "9")] [("a", "1"), ("b", "2")]
      "T1" "T1" "a" (by decide)).1]
    decide
  · rw [(mergeState_shallow_overwrite [("a", "0"), ("c", "9")] [("a", "1"), ("b", "2")]
      "T1" "T1" "c" (by decide)).1]
    decide
  · rw [(mergeState_shallow_overwrite [("a", "0"), ("c", "9")] [("a", "1"), ("b", "2")]
      "T1" "T1" updatedAtKey (by decide)).1]
    decide

/-- C10: maskPhone sends every input of length at most 4 to the constant
`"****"`; every longer input to its first two characters, then
`max 2 (length - 4)` asterisks, then its last two characters; and in either
case every character of the output is an asterisk or one of the first two or
last two characters of the input. -/
theorem maskPhone_reveals_at_most_four (p : String) :
    (p.length ≤ 4 → maskPhone p = "****") ∧
    (4 < p.length → maskPhone p = String.mk (p.data.take 2 ++
      List.replicate (max 2 (p.length - 4)) '*' ++ p.data.drop (p.length - 2))) ∧
    (∀ c ∈ (maskPhone p).data, c = '*' ∨ c ∈ p.data.take 2 ∨
      c ∈ p.data.drop (p.length - 2)) := by
  refine ⟨fun h => by simp [maskPhone, h],
    fun h => by simp [maskPhone, Nat.not_le.mpr h], ?_⟩
  intro c hc
  by_cases h : p.length ≤ 4
  · simp only [maskPhone, if_pos h] at hc
    simp at hc
    exact Or.inl hc
  · simp only [maskPhone, if_neg h] at hc
    rcases List.mem_append.mp hc with hc1 | hc2
    · rcases List.mem_append.mp hc1 with hc3 | hc4
      · exact Or.inr (Or.inl hc3)
      · exact Or.inl (List.eq_of_mem_replicate hc4)
    · exact Or.inr (Or.inr hc2)

/-- C10 witness: `"1234"` (length 4) collapses to `"****"`; `"1234567"`
(length 7) keeps `"12"` and `"67"` around three asterisks; and the character
`'1'` of the masked `"1234567"` is among the revealed head characters. -/
theorem maskPhone_reveals_at_most_four_witness :
    maskPhone "1234" = "****" ∧
    maskPhone "1234567" = String.mk ("1234567".data.take 2 ++
      List.replicate (max 2 ("1234567".length - 4)) '*' ++
      "1234567".data.drop ("1234567".length - 2)) ∧
    ('1' = '*' ∨ '1' ∈ "1234567".data.take 2 ∨
      '1' ∈ "1234567".data.drop ("1234567".length - 2)) := by
  refine ⟨(maskPhone_reveals_at_most_four "1234").1 (by decide),
    (maskPhone_reveals_at_most_four "1234567").2.1 (by decide),
    (maskPhone_reveals_at_most_four "1234567").2.2 '1' ?_⟩
  decide

/-- C9: with `SIMULATE_ONLY` true (its default), `POST /webhook` and
`POST /send` answer 403 before touching any message, mutating no state and
emitting no outbound action, and `maybeSendWhatsAppText` throws without
consulting the transport (its result ignores the transport oracle), so the
modelled system performs no outbound WhatsApp send on any code path. -/
theorem simulate_only_blocks_outbound :
    (∀ (st : ServerState) (batch : List (Msg × GenResult × Bool)) (now : Nat)
      (nowIso : String), postWebhook true st batch now nowIso = (Resp.forbidden, [], st)) ∧
    (∀ (recipient text : String) (sendOk : Bool),
      postSend true recipient text sendOk = (Resp.forbidden, [])) ∧
    (∀ (recipient body : String) (sendOk : Bool),
      maybeSendWhatsAppText true recipient body sendOk = Except.error ()) := by
  refine ⟨fun st batch now nowIso => by simp [postWebhook],
    fun recipient text sendOk => by simp [postSend],
    fun recipient body sendOk => by simp [maybeSendWhatsAppText]⟩

/-- C1 (code bug): `c1Content` is a raw response that fails direct parsing
yet contains a schema-valid JSON object substring — indeed exactly the span
`extractFirstJsonObject` would select, and that span parses and validates to
a `GeneratedReply`. But `JSON.parse(content)` throws before the repair branch
of `parseLlmContent` can run, the throw escapes `parseLlmContent`, and
`generateReply`'s catch turns it into `null`: the repair never recovers the
embedded object, contradicting the claimed (and documented) repair policy. -/
theorem repair_unreachable_for_raw_text :
    jsonParse c1Content = Option.none ∧
    extractFirstJsonObject c1Content = Option.some c1Embedded ∧
    (jsonParse c1Embedded).bind validateLlmOutput =
      Option.some ⟨"hi", "q", [], [], ""⟩ ∧
    parseLlmContent c1Content = Except.error () ∧
    parseLlmContentCaught c1Content = Option.none := by
  exact ⟨rfl, rfl, rfl, rfl, rfl⟩

theorem processMessage_processedIds (simOnly : Bool) (st : ServerState) (m : Msg)
    (g : GenResult) (s : Bool) (now : Nat) (iso : String) :
    (processMessage simOnly st m g s now iso).st.processedIds =
      if (alookup m.id st.processedIds).isSome then st.processedIds
      else aset st.processedIds m.id now := by
  by_cases h : (alookup m.id st.processedIds).isSome
  · simp [processMessage, h]
  · simp only [processMessage, h, Bool.false_eq_true, if_false]
    split
    · rfl
    · split
      · rfl
      · split
        · rfl
        · split <;> rfl
        · simp only [dispatchPresent]
          split
          · split <;> rfl
          · split <;> rfl

theorem processMessage_duplicate (simOnly : Bool) (st : ServerState) (m : Msg)
    (g : GenResult) (s : Bool) (now : Nat) (iso : String)
    (h : (alookup m.id st.processedIds).isSome) :
    processMessage simOnly st m g s now iso = ⟨[], st, false⟩ := by
  simp [processMessage, h]

theorem processMessage_id_present (simOnly : Bool) (st : ServerState) (m : Msg)
    (g : GenResult) (s : Bool) (now : Nat) (iso : String) :
    (alookup m.id (processMessage simOnly st m g s now iso).st.processedIds).isSome := by
  rw [processMessage_processedIds]
  by_cases h : (alookup m.id st.processedIds).isSome
  · simp [h]
  · simp [h, alookup_aset_self]

/-- C6: intake is idempotent per message identifier. (1) A message whose id
is already in the dedup set is a complete no-op: no action, no state change,
no error. (2) An unseen id is recorded with `now` unconditionally — before
the rate and kind checks, whatever the generation and send oracles say, even
if the message is then rate-limited or non-text. (3) Hence processing the
same message twice in a batch performs exactly the actions and state mutation
of the first occurrence; the second is dropped. (4) The lazy sweep retains a
dedup entry whose age is within the 24h retention window, so the no-op
behaviour persists across batches inside the window. -/
theorem dedup_second_occurrence_noop :
    (∀ (st : ServerState) (m : Msg) (g : GenResult) (s : Bool) (now : Nat) (iso : String),
      (alookup m.id st.processedIds).isSome →
      processMessage false st m g s now iso = ⟨[], st, false⟩) ∧
    (∀ (st : ServerState) (m : Msg) (g : GenResult) (s : Bool) (now : Nat) (iso : String),
      alookup m.id st.processedIds = Option.none →
      alookup m.id (processMessage false st m g s now iso).st.processedIds =
        Option.some now) ∧
    (∀ (st : ServerState) (m : Msg) (g1 : GenResult) (s1 : Bool) (g2 : GenResult)
      (s2 : Bool) (now : Nat) (iso : String),
      (processMessage false st m g1 s1 now iso).errored = false →
      runBatch false st [(m, g1, s1), (m, g2, s2)] now iso =
        ⟨(processMessage false st m g1 s1 now iso).acts,
         (processMessage false st m g1 s1 now iso).st, false⟩) ∧
    (∀ (l : List (String × Nat)) (now : Nat) (k : String) (t : Nat),
      alookup k l = Option.some t → now - t ≤ duplicateWindowMs →
      alookup k (cleanupProcessedIds l now) = Option.some t) := by
  refine ⟨fun st m g s now iso h => processMessage_duplicate false st m g s now iso h,
    ?_, ?_, fun l now k t h1 h2 => alookup_cleanup l now k t h1 h2⟩
  · intro st m g s now iso h
    rw [processMessage_processedIds]
    simp [h, alookup_aset_self]
  · intro st m g1 s1 g2 s2 now iso h1
    cases hr : processMessage false st m g1 s1 now iso with
    | mk acts1 st1 e1 =>
      rw [hr] at h1
      simp only at h1
      subst h1
      have hp := processMessage_id_present false st m g1 s1 now iso
      rw [hr] at hp
      have hd := processMessage_duplicate false st1 m g2 s2 now iso hp
      simp [runBatch, hr, hd]

/-- C6 witness: the concrete duplicate pair performs only the first
occurrence's dispatch; a concrete present id is a no-op; a concrete unseen id
is recorded even when the generation call rejects; a concrete dedup entry
aged 95ms survives the sweep. -/
theorem dedup_second_occurrence_noop_witness :
    runBatch false ⟨[], [], []⟩ [(c6Msg, GenResult.present c6Reply, true),
      (c6Msg, GenResult.present c6Reply, true)] 5 "T1" =
      ⟨(processMessage false ⟨[], [], []⟩ c6Msg (GenResult.present c6Reply) true 5 "T1").acts,
       (processMessage false ⟨[], [], []⟩ c6Msg (GenResult.present c6Reply) true 5 "T1").st,
       false⟩ ∧
    processMessage false ⟨[("dup1", 3)], [], []⟩ c6Msg (GenResult.present c6Reply) true 5
      "T1" = ⟨[], ⟨[("dup1", 3)], [], []⟩, false⟩ ∧
    alookup "dup1"
      (processMessage false ⟨[], [], []⟩ c6Msg GenResult.rej true 5 "T1").st.processedIds =
      Option.some 5 ∧
    alookup "dup1" (cleanupProcessedIds [("dup1", 5)] 100) = Option.some 5 :=
  ⟨dedup_second_occurrence_noop.2.2.1 ⟨[], [], []⟩ c6Msg (GenResult.present c6Reply) true
      (GenResult.present c6Reply) true 5 "T1" (by decide),
   dedup_second_occurrence_noop.1 ⟨[("dup1", 3)], [], []⟩ c6Msg (GenResult.present c6Reply)
      true 5 "T1" (by decide),
   dedup_second_occurrence_noop.2.1 ⟨[], [], []⟩ c6Msg GenResult.rej true 5 "T1" (by decide),
   dedup_second_occurrence_noop.2.2.2 [("dup1", 5)] 100 "dup1" 5 (by decide) (by decide)⟩

/-- C3 (amended): a throw while processing one message of a batch — here an
outbound dispatch failure — aborts the loop at that message: the batch result
carries exactly the actions of the messages before it plus whatever the
failing message emitted before throwing (nothing, for a failed send), the
state as mutated up to the throw, and the error flag; messages after the
failing one are never processed, so their dispatches do not complete.
Messages before the failing one do complete their own dispatch. -/
theorem dispatch_failure_aborts_batch (simOnly : Bool) (st : ServerState)
    (pre : List (Msg × GenResult × Bool)) (m : Msg) (g : GenResult) (s : Bool)
    (post : List (Msg × GenResult × Bool)) (now : Nat) (iso : String)
    (acts1 : List Act) (st1 : ServerState)
    (hpre : runBatch simOnly st pre now iso = ⟨acts1, st1, false⟩)
    (herr : (processMessage simOnly st1 m g s now iso).errored = true) :
    runBatch simOnly st (pre ++ (m, g, s) :: post) now iso =
      ⟨acts1 ++ (processMessage simOnly st1 m g s now iso).acts,
       (processMessage simOnly st1 m g s now iso).st, true⟩ := by
  induction pre generalizing st acts1 with
  | nil =>
    simp only [runBatch] at hpre
    injection hpre with h1 h2 h3
    subst h1
    rw [← h2] at herr ⊢
    cases hr : processMessage simOnly st m g s now iso with
    | mk a2 s2 e2 =>
      rw [hr] at herr
      simp only at herr
      subst herr
      simp [runBatch, hr]
  | cons hd pre' ih =>
    obtain ⟨m0, g0, s0⟩ := hd
    simp only [runBatch] at hpre
    cases hr0 : processMessage simOnly st m0 g0 s0 now iso with
    | mk a0 st0 e0 =>
      rw [hr0] at hpre
      cases e0 with
      | true =>
        have hcontra : true = false := congrArg StepResult.errored hpre
        exact Bool.noConfusion hcontra
      | false =>
        have h1 : a0 ++ (runBatch simOnly st0 pre' now iso).acts = acts1 :=
          congrArg StepResult.acts hpre
        have h2 : (runBatch simOnly st0 pre' now iso).st = st1 :=
          congrArg StepResult.st hpre
        have h3 : (runBatch simOnly st0 pre' now iso).errored = false :=
          congrArg StepResult.errored hpre
        have hpre' : runBatch simOnly st0 pre' now iso =
            ⟨(runBatch simOnly st0 pre' now iso).acts, st1, false⟩ := by
          rw [← h2, ← h3]
        have hih := ih st0 (runBatch simOnly st0 pre' now iso).acts hpre'
        rw [List.cons_append]
        simp only [runBatch, hr0]
        rw [hih]
        simp [← h1, List.append_assoc]

/-- C3 counterexample: in the concrete three-message batch whose 2nd
message's outbound send fails, the batch emits only the 1st message's
dispatch and errors out — the 3rd message's dispatch does not complete,
contradicting the claim that the 1st and 3rd still complete their own
dispatch. -/
theorem dispatch_failure_counterexample :
    (runBatch false ⟨[], [], []⟩ [(c3Msg1, GenResult.present c3Reply, true),
      (c3Msg2, GenResult.present c3Reply, false),
      (c3Msg3, GenResult.present c3Reply, true)] 1000 "T1").acts =
      [Act.send "p11111" "reply1"] ∧
    (runBatch false ⟨[], [], []⟩ [(c3Msg1, GenResult.present c3Reply, true),
      (c3Msg2, GenResult.present c3Reply, false),
      (c3Msg3, GenResult.present c3Reply, true)] 1000 "T1").errored = true :=
  ⟨rfl, rfl⟩

/-- C3 witness: the amended statement applied to the concrete three-message
batch. -/
theorem dispatch_failure_aborts_batch_witness :
    runBatch false ⟨[], [], []⟩ ([(c3Msg1, GenResult.present c3Reply, true)] ++
      (c3Msg2, GenResult.present c3Reply, false) ::
      [(c3Msg3, GenResult.present c3Reply, true)]) 1000 "T1" =
      ⟨(runBatch false ⟨[], [], []⟩ [(c3Msg1, GenResult.present c3Reply, true)] 1000
          "T1").acts ++
        (processMessage false
          (runBatch false ⟨[], [], []⟩ [(c3Msg1, GenResult.present c3Reply, true)] 1000
            "T1").st c3Msg2 (GenResult.present c3Reply) false 1000 "T1").acts,
       (processMessage false
          (runBatch false ⟨[], [], []⟩ [(c3Msg1, GenResult.present c3Reply, true)] 1000
            "T1").st c3Msg2 (GenResult.present c3Reply) false 1000 "T1").st, true⟩ :=
  dispatch_failure_aborts_batch false ⟨[], [], []⟩
    [(c3Msg1, GenResult.present c3Reply, true)] c3Msg2 (GenResult.present c3Reply) false
    [(c3Msg3, GenResult.present c3Reply, true)] 1000 "T1"
    (runBatch false ⟨[], [], []⟩ [(c3Msg1, GenResult.present c3Reply, true)] 1000 "T1").acts
    (runBatch false ⟨[], [], []⟩ [(c3Msg1, GenResult.present c3Reply, true)] 1000 "T1").st
    (by decide) (by decide)

/-- C7 (amended): for every present generation result whose intent
case-insensitively equals the reserved escalation value and whose
acknowledgement dispatch succeeds, the orchestrator sends the fixed handoff
acknowledgement — not the generator's free-text reply — and emits exactly one
escalation record carrying the masked sender id, the generator's
notes_for_human, the triggering message text (truncated to its first 200
characters in the richer variant, full in the P3 variant), and the post-merge
state snapshot; the merge of `fields_collected` plus `last_intent` (plus
`last_reply` in the richer variant) is applied to the stored state before the
dispatch branching, as the resulting state of both variants shows. -/
theorem handoff_sends_fixed_ack_and_escalates (st : ServerState)
    (sender textBody : String) (r : LlmOutput) (nowIso : String)
    (h : lowerStr r.intent = handoffIntent) :
    dispatchPresent false st sender textBody r true nowIso =
      ⟨[Act.send sender handoffAckBody,
        Act.escalation (maskPhone sender) r.notes_for_human
          (String.mk (textBody.data.take 200))
          (mergeState (stateStoreGet st sender)
            (r.fields_collected ++ [("last_intent", r.intent), ("last_reply", r.reply)])
            nowIso)],
       { st with states := (aset st.states sender (mergeState (stateStoreGet st sender)
          (r.fields_collected ++ [("last_intent", r.intent), ("last_reply", r.reply)])
          nowIso)) }, false⟩ ∧
    dispatchPresentP3 st sender textBody r true nowIso =
      ⟨[Act.send sender handoffAckBody,
        Act.escalation (maskPhone sender) r.notes_for_human textBody
          (mergeState (stateStoreGet st sender)
            (r.fields_collected ++ [("last_intent", r.intent)]) nowIso)],
       { st with states := (aset st.states sender (mergeState (stateStoreGet st sender)
          (r.fields_collected ++ [("last_intent", r.intent)]) nowIso)) }, false⟩ := by
  constructor
  · simp [dispatchPresent, maybeSendWhatsAppText, h, stateStoreGet, alookup_aset_self]
  · simp [dispatchPresentP3, h, stateStoreGet, alookup_aset_self]

set_option maxRecDepth 8192 in
/-- C7 counterexample: with a 201-character triggering message, the richer
variant's escalation record carries only the first 200 characters, not the
triggering message text itself — the claim's description of the record is
false as stated for the richer variant. -/
theorem escalation_text_truncated_counterexample :
    (dispatchPresent false ⟨[], [], []⟩ "905551112233" longText
        ⟨"free", "handoff", [], [], "note"⟩ true "T1").acts =
      [Act.send "905551112233" handoffAckBody,
       Act.escalation "90********33" "note" (String.mk (List.replicate 200 'a'))
         [("last_intent", "handoff"), ("last_reply", "free"), ("updated_at", "T1")]] ∧
    String.mk (List.replicate 200 'a') ≠ longText := by
  refine ⟨by decide, by decide⟩

/-- C7 witness: the amended statement at a concrete mixed-case `"HANDOFF"`
intent, exercising the case-insensitive comparison. -/
theorem handoff_sends_fixed_ack_and_escalates_witness :
    (dispatchPresent false ⟨[], [], []⟩ "905551112233" "hello" c7Reply true "T1").acts =
      [Act.send "905551112233" handoffAckBody,
       Act.escalation (maskPhone "905551112233") "note" (String.mk ("hello".data.take 200))
         (mergeState [] [("last_intent", "HANDOFF"), ("last_reply", "free")] "T1")] := by
  have h := handoff_sends_fixed_ack_and_escalates ⟨[], [], []⟩ "905551112233" "hello"
    c7Reply "T1" (by decide)
  rw [h.1]
  decide

/-- C2 (code bug): in the richer variant a generation-call rejection (the 8s
race timeout or an axios transport error) is not caught anywhere on the
webhook path, so it reaches the global error handler: the route answers 500,
no fallback message is dispatched, and no state is merged (only the dedup and
rate maps were touched before the call). The P3 variant, whose try/catch
implements the claimed collapse, dispatches the fixed fallback for the same
rejection. -/
theorem generation_rejection_bypasses_fallback :
    postWebhook false ⟨[], [], []⟩ [(c2Msg, GenResult.rej, true)] 1000 "T1" =
      (Resp.serverError, [],
        ⟨[("wamid.1", 1000)], [("905551112233", ⟨1, 1000⟩)], []⟩) ∧
    runBatchP3 ⟨[], [], []⟩ [(c2Msg, GenResult.rej, true)] 1000 "T1" =
      ⟨[Act.send "905551112233" fallbackBody],
       ⟨[("wamid.1", 1000)], [("905551112233", ⟨1, 1000⟩)], []⟩, false⟩ := by
  refine ⟨by decide, by decide⟩
